import Mathlib

/-!
Shallow embedding of the `concurrent_git_pool` crate (and the yb crate's copy
of `PoolHelper`): the single-flight clone cache `Pool`, the `clone_repo`
subprocess wrapper, `Pool::clone_in`, `PoolHelper`, and the RPC `Client`.

Paths are modelled as strings (`PathBuf::join` appends a separator and the
component); process exit status and spawned-command shapes are modelled
explicitly; panics are modelled by the `PanicOr` outcome type.
-/

namespace GitPool

/-- Mirrors `ServiceError` in `src/concurrent_git_pool/src/error.rs`. -/
inductive ServiceError
  | cloneFailed (detail : String)
  | ioError (detail : String)
deriving DecidableEq, Repr

/-- Mirrors `ServiceResult<T> = Result<T, ServiceError>`. -/
abbrev ServiceResult (α : Type) := Except ServiceError α

instance {ε α : Type} [DecidableEq ε] [DecidableEq α] : DecidableEq (Except ε α) :=
  fun a b =>
    match a, b with
    | .ok x, .ok y => decidable_of_iff (x = y) (by simp)
    | .error x, .error y => decidable_of_iff (x = y) (by simp)
    | .ok _, .error _ => isFalse (by simp)
    | .error _, .ok _ => isFalse (by simp)

/-- Result of running a Rust function that may panic. -/
inductive PanicOr (α : Type)
  | ok (a : α)
  | panicked
deriving DecidableEq, Repr

/-- Model of `PathBuf::join`: root joined with one extra component. -/
def joinPath (root component : String) : String :=
  root ++ "/" ++ component

/-- Model of `std::process::ExitStatus` as observed by the code:
`success()` and its `Display`/`Debug` rendering. -/
structure ProcExit where
  success : Bool
  desc : String
deriving DecidableEq, Repr

/-- Result of spawning/awaiting an external process: either an OS-level I/O
failure to launch (with its rendered message), or an exit status. -/
abbrev SpawnResult := Except String ProcExit

/-- A spawned command: program, arguments in order, environment variables
set by the builder, and the working directory if one was set. -/
structure Command where
  program : String
  args : List String
  env : List (String × String)
  cwd : Option String
deriving DecidableEq, Repr

/-! ### clone_repo (src/concurrent_git_pool/src/pool.rs lines 124 - 142) -/

/-- The command built by `clone_repo`: `git clone <remote> <dest_dir_name>`
with `GIT_TERMINAL_PROMPT=0`, run in the pool root. -/
def cloneRepoCommand (root remote destDir : String) : Command :=
  { program := "git"
    args := ["clone", remote, destDir]
    env := [("GIT_TERMINAL_PROMPT", "0")]
    cwd := some root }

/-- Model of `clone_repo`: `.status().await?` maps a launch I/O error through
`From<io::Error> for ServiceError` into `IoError`; a non-success exit status
becomes `CloneFailed(format ... status)`; success yields
`root.join(dest_dir_name)`. -/
def cloneRepo (root : String) (_remote : String) (destDir : String)
    (spawn : SpawnResult) : ServiceResult String :=
  match spawn with
  | .error msg => .error (.ioError msg)
  | .ok st =>
    if st.success then .ok (joinPath root destDir)
    else .error (.cloneFailed st.desc)

/-! ### Pool::clone_in (src/concurrent_git_pool/src/pool.rs lines 28 - 59) -/

/-- The working-copy command built by `Pool::clone_in` once the pooled path
is known: `git clone <remote> [<directory>] --reference <pool_path>
--dissociate`, with `GIT_TERMINAL_PROMPT=0`, in `cwd` when given. -/
def cloneInCommand (poolPath : String) (cwd : Option String)
    (remote : String) (directory : Option String) : Command :=
  { program := "git"
    args := ["clone", remote] ++ directory.toList ++
      ["--reference", poolPath, "--dissociate"]
    env := [("GIT_TERMINAL_PROMPT", "0")]
    cwd := cwd }

/-- Model of `Pool::clone_in`: first `self.lookup_or_clone(remote).await.unwrap()` —
an `Err` from the lookup makes the function panic.  On `Ok(path)` it runs
the working-copy command; `command.output().await.map_err(..).map(|_| ())`
maps a launch I/O error to `IoError` and otherwise returns `Ok(())`
without inspecting the exit status. -/
def poolCloneIn (lookupRes : ServiceResult String) (_cwd : Option String)
    (_remote : String) (_directory : Option String) (spawn : SpawnResult) :
    PanicOr (ServiceResult Unit) :=
  match lookupRes with
  | .error _ => .panicked
  | .ok _path =>
    match spawn with
    | .error msg => .ok (.error (.ioError msg))
    | .ok _ => .ok (.ok ())

/-- True exactly when a `clone_in`-shaped outcome is `Err(CloneFailed)`
returned as a value (not a panic). -/
def returnsCloneFailed : PanicOr (ServiceResult Unit) → Bool
  | .ok (.error (.cloneFailed _)) => true
  | _ => false

/-- True exactly when a `clone_in`-shaped outcome is an `Err` value of any
kind returned normally (not a panic). -/
def returnsErrValue : PanicOr (ServiceResult Unit) → Bool
  | .ok (.error _) => true
  | _ => false

/-! ### SHA-256 (model of the `sha2` crate as used by `lookup_or_clone`)

`lookup_or_clone` derives the pooled directory name as
`format ... hasher.finalize()` with the `x` (lower-hex) formatter over
`Sha256` of the remote string's UTF-8 bytes.  The hash itself is the
FIPS 180-4 SHA-256 function, implemented here over byte lists with `Nat`
arithmetic mod 2^32. -/

/-- The 32-bit modulus. -/
def M32 : Nat := 4294967296

/-- Addition mod 2^32. -/
def add32 (a b : Nat) : Nat := (a + b) % M32

/-- Rotate a 32-bit word right by `n` bits. -/
def rotr32 (n x : Nat) : Nat := ((x >>> n) ||| (x <<< (32 - n))) % M32

/-- SHA-256 Ch function. -/
def shaCh (x y z : Nat) : Nat := (x &&& y) ^^^ ((x ^^^ 4294967295) &&& z)

/-- SHA-256 Maj function. -/
def shaMaj (x y z : Nat) : Nat := (x &&& y) ^^^ (x &&& z) ^^^ (y &&& z)

/-- SHA-256 big sigma 0. -/
def bsig0 (x : Nat) : Nat := rotr32 2 x ^^^ rotr32 13 x ^^^ rotr32 22 x

/-- SHA-256 big sigma 1. -/
def bsig1 (x : Nat) : Nat := rotr32 6 x ^^^ rotr32 11 x ^^^ rotr32 25 x

/-- SHA-256 small sigma 0. -/
def ssig0 (x : Nat) : Nat := rotr32 7 x ^^^ rotr32 18 x ^^^ (x >>> 3)

/-- SHA-256 small sigma 1. -/
def ssig1 (x : Nat) : Nat := rotr32 17 x ^^^ rotr32 19 x ^^^ (x >>> 10)

/-- The sixty-four round constants of SHA-256 (FIPS 180-4 section 4.2.2),
written in decimal. -/
def shaK : List Nat :=
  [1116352408, 1899447441, 3049323471, 3921009573,
   961987163, 1508970993, 2453635748, 2870763221,
   3624381080, 310598401, 607225278, 1426881987,
   1925078388, 2162078206, 2614888103, 3248222580,
   3835390401, 4022224774, 264347078, 604807628,
   770255983, 1249150122, 1555081692, 1996064986,
   2554220882, 2821834349, 2952996808, 3210313671,
   3336571891, 3584528711, 113926993, 338241895,
   666307205, 773529912, 1294757372, 1396182291,
   1695183700, 1986661051, 2177026350, 2456956037,
   2730485921, 2820302411, 3259730800, 3345764771,
   3516065817, 3600352804, 4094571909, 275423344,
   430227734, 506948616, 659060556, 883997877,
   958139571, 1322822218, 1537002063, 1747873779,
   1955562222, 2024104815, 2227730452, 2361852424,
   2428436474, 2756734187, 3204031479, 3329325298]

/-- Big-endian byte rendering of `v` on `n` bytes. -/
def beBytes : Nat → Nat → List Nat
  | 0, _ => []
  | n + 1, v => beBytes n (v / 256) ++ [v % 256]

/-- SHA-256 padding: append `0x80`, zeros to 56 mod 64, then the bit length
on 8 big-endian bytes. -/
def padMsg (msg : List Nat) : List Nat :=
  let len := msg.length
  let zeros := (119 - len % 64) % 64
  msg ++ [0x80] ++ List.replicate zeros 0 ++ beBytes 8 (8 * len)

/-- Big-endian 32-bit words from a byte list. -/
def toWords : List Nat → List Nat
  | b0 :: b1 :: b2 :: b3 :: rest =>
    (((b0 * 256 + b1) * 256 + b2) * 256 + b3) :: toWords rest
  | _ => []

/-- One extension step of the message schedule: appends
`ssig1 w[t-2] + w[t-7] + ssig0 w[t-15] + w[t-16]` where `t` is the current
length. -/
def stepW (ws : List Nat) : List Nat :=
  let t := ws.length
  ws ++ [add32 (add32 (ssig1 (ws.getD (t - 2) 0)) (ws.getD (t - 7) 0))
           (add32 (ssig0 (ws.getD (t - 15) 0)) (ws.getD (t - 16) 0))]

/-- Iterate `stepW`. -/
def extendW : List Nat → Nat → List Nat
  | ws, 0 => ws
  | ws, n + 1 => extendW (stepW ws) n

/-- The eight 32-bit words of SHA-256 working state. -/
structure H8 where
  a : Nat
  b : Nat
  c : Nat
  d : Nat
  e : Nat
  f : Nat
  g : Nat
  h : Nat
deriving DecidableEq, Repr

/-- Initial SHA-256 hash state (FIPS 180-4 section 5.3.3), in decimal. -/
def initH : H8 :=
  ⟨1779033703, 3144134277, 1013904242, 2773480762,
   1359893119, 2600822924, 528734635, 1541459225⟩

/-- One SHA-256 compression round with constant `k` and schedule word `w`. -/
def shaRound (s : H8) (k w : Nat) : H8 :=
  let t1 := add32 s.h (add32 (bsig1 s.e) (add32 (shaCh s.e s.f s.g) (add32 k w)))
  let t2 := add32 (bsig0 s.a) (shaMaj s.a s.b s.c)
  ⟨add32 t1 t2, s.a, s.b, s.c, add32 s.d t1, s.e, s.f, s.g⟩

/-- Compress one 64-byte chunk into the running state. -/
def compressChunk (s : H8) (chunk : List Nat) : H8 :=
  let ws := extendW (toWords chunk) 48
  let t := (shaK.zip ws).foldl (fun st kw => shaRound st kw.1 kw.2) s
  ⟨add32 s.a t.a, add32 s.b t.b, add32 s.c t.c, add32 s.d t.d,
   add32 s.e t.e, add32 s.f t.f, add32 s.g t.g, add32 s.h t.h⟩

/-- Split a byte list into 64-byte chunks; the fuel bounds the number of
chunks and is passed as the list length (each chunk consumes 64 bytes). -/
def toChunksF : Nat → List Nat → List (List Nat)
  | 0, _ => []
  | _, [] => []
  | n + 1, x :: l => (x :: l).take 64 :: toChunksF n ((x :: l).drop 64)

/-- Split a byte list into 64-byte chunks. -/
def toChunks (l : List Nat) : List (List Nat) :=
  toChunksF l.length l

/-- SHA-256 of a byte list, as 32 digest bytes. -/
def sha256 (msg : List Nat) : List Nat :=
  let fin := (toChunks (padMsg msg)).foldl compressChunk initH
  (([fin.a, fin.b, fin.c, fin.d, fin.e, fin.f, fin.g, fin.h]).map
    (beBytes 4)).flatten

/-- Lower-case hex digit. -/
def hexDigit (n : Nat) : Char :=
  "0123456789abcdef".toList.getD n '0'

/-- Lower-case hex string of a byte list, two digits per byte: the `x`
formatter applied to a digest. -/
def hexLower (bytes : List Nat) : String :=
  String.mk ((bytes.map fun b => [hexDigit (b / 16), hexDigit (b % 16)]).flatten)

/-- UTF-8 encoding of one scalar value. -/
def utf8Char (c : Nat) : List Nat :=
  if c < 0x80 then [c]
  else if c < 0x800 then
    [0xC0 ||| (c >>> 6), 0x80 ||| (c &&& 0x3F)]
  else if c < 0x10000 then
    [0xE0 ||| (c >>> 12), 0x80 ||| ((c >>> 6) &&& 0x3F), 0x80 ||| (c &&& 0x3F)]
  else
    [0xF0 ||| (c >>> 18), 0x80 ||| ((c >>> 12) &&& 0x3F),
     0x80 ||| ((c >>> 6) &&& 0x3F), 0x80 ||| (c &&& 0x3F)]

/-- UTF-8 bytes of a string. -/
def utf8Bytes (s : String) : List Nat :=
  (s.data.map fun ch => utf8Char ch.toNat).flatten

/-- The pooled directory name computed by `lookup_or_clone`
(src/concurrent_git_pool/src/pool.rs lines 81 - 85): lower-hex SHA-256 of
the remote string's UTF-8 bytes. -/
def destDirName (remote : String) : String :=
  hexLower (sha256 (utf8Bytes remote))

/-- FIPS 180-4 test vector: validates the SHA-256 embedding. -/
theorem sha256_abc_vector :
    hexLower (sha256 (utf8Bytes "abc")) =
      "ba7816bf8f01cfea414140de5dae2223b00361a396177a9cb410ff61f20015ad" := by
  decide

/-! ### PoolHelper (src/concurrent_git_pool/src/pool_helper.rs) -/

/-- Model of `Client`: a connected RPC stub remembering its endpoint. -/
structure ClientM where
  endpoint : String
deriving DecidableEq, Repr

/-- Model of `Client::connect(addr)`: the transport either connects (and the
resulting stub is bound to `addr`) or fails with a transport-level message.
`net` is the ambient network behaviour. -/
def clientConnect (net : String → Except String Unit) (addr : String) :
    Except String ClientM :=
  (net addr).map fun _ => { endpoint := addr }

/-- Model of `PoolHelper`: `inner: Option<Client>`. -/
structure PoolHelperM where
  inner : Option ClientM
deriving DecidableEq, Repr

/-- Model of `PoolHelper::connect_or_local`: reads `CONCURRENT_GIT_POOL` from the
environment (modelled as a partial map from variable names to values);
when present connects a `Client` to that value, otherwise the helper is
local (`inner: None`). -/
def connectOrLocal (env : String → Option String)
    (net : String → Except String Unit) : Except String PoolHelperM :=
  match env "CONCURRENT_GIT_POOL" with
  | some v => (clientConnect net v).map fun c => { inner := some c }
  | none => .ok { inner := none }

/-- Where a `PoolHelper::clone_in` call is routed: through the RPC client,
or to a locally spawned command. -/
inductive CloneInRoute
  | rpc (endpoint uri : String) (parentDir : Option String)
      (directory : Option String)
  | localCmd (cmd : Command)
deriving DecidableEq, Repr

/-- The local command built by the crate's `PoolHelper::clone_in` when no
client is configured: `git clone <uri> [<directory>]` with
`GIT_TERMINAL_PROMPT=0` and `GIT_SSH_COMMAND=ssh -o BatchMode=yes`, in
`parent_dir` when given. -/
def helperLocalCommand (uri : String) (parentDir : Option String)
    (directory : Option String) : Command :=
  { program := "git"
    args := ["clone", uri] ++ directory.toList
    env := [("GIT_TERMINAL_PROMPT", "0"),
            ("GIT_SSH_COMMAND", "ssh -o BatchMode=yes")]
    cwd := parentDir }

/-- Routing of `PoolHelper::clone_in`
(src/concurrent_git_pool/src/pool_helper.rs lines 22 - 34 / 36 - 45):
with `inner = Some(client)` the call is forwarded over the RPC; with
`inner = None` a local `git` command is built and run. -/
def poolHelperRoute (h : PoolHelperM) (uri : String)
    (parentDir : Option String) (directory : Option String) : CloneInRoute :=
  match h.inner with
  | some c => .rpc c.endpoint uri parentDir directory
  | none => .localCmd (helperLocalCommand uri parentDir directory)

/-- Local-mode result of the crate's `PoolHelper::clone_in`
(src/concurrent_git_pool/src/pool_helper.rs lines 47 - 61): a launch I/O
error becomes `Ok(Err(IoError(..)))`, a non-success exit status becomes
`Ok(Err(CloneFailed("exit code: " ++ debug output)))`, success is
`Ok(Ok(()))`.  The outer `Result` is the transport result and is always
`Ok` in local mode. -/
def helperLocalCloneIn (spawn : SpawnResult) :
    Except String (ServiceResult Unit) :=
  match spawn with
  | .error e => .ok (.error (.ioError ("failed to call status() on command: " ++ e)))
  | .ok st =>
    if !st.success then .ok (.error (.cloneFailed ("exit code: " ++ st.desc)))
    else .ok (.ok ())

/-- Local-mode result of the yb crate's copy of `PoolHelper::clone_in`
(src/yb/src/util/git/pool_helper.rs lines 45 - 51): a launch I/O error
becomes `Ok(Err(CloneFailed(..)))`; any exit status — success or not — is
`Ok(Ok(()))`. -/
def ybHelperLocalCloneIn (spawn : SpawnResult) :
    Except String (ServiceResult Unit) :=
  match spawn with
  | .error e => .ok (.error (.cloneFailed e))
  | .ok _ => .ok (.ok ())

/-! ### Client request contexts (src/concurrent_git_pool/src/client.rs) -/

/-- Model of `tarpc::context::Context` as used here: only the deadline
matters; time is in seconds. -/
structure Context where
  deadline : Nat
deriving DecidableEq, Repr

/-- Model of `Client::make_context`: the current context with
`deadline = SystemTime::now() + Duration::from_secs(60 * 5)`. -/
def makeContext (now : Nat) : Context :=
  { deadline := now + 60 * 5 }

/-- The payload of one RPC request, per the `Service` trait
(src/concurrent_git_pool/src/service.rs). -/
inductive Payload
  | lookupOrClone (uri : String)
  | lookup (uri : String)
  | cloneIn (uri : String) (parentDir : Option String)
      (directory : Option String)
deriving DecidableEq, Repr

/-- One request as sent by the `Client`: a context plus a payload. -/
structure Request where
  context : Context
  payload : Payload
deriving DecidableEq, Repr

/-- Request built by `Client::lookup_or_clone`: it builds its request with a fresh
`Self::make_context()`. -/
def clientLookupOrCloneReq (now : Nat) (uri : String) : Request :=
  { context := makeContext now, payload := .lookupOrClone uri }

/-- Request built by `Client::lookup` with a fresh `Self::make_context()`. -/
def clientLookupReq (now : Nat) (uri : String) : Request :=
  { context := makeContext now, payload := .lookup uri }

/-- Request built by `Client::clone_in` with a fresh
`Self::make_context()`. -/
def clientCloneInReq (now : Nat) (uri : String) (parentDir : Option String)
    (directory : Option String) : Request :=
  { context := makeContext now
    payload := .cloneIn uri parentDir directory }

/-! ### Pool::new (src/concurrent_git_pool/src/pool.rs lines 21 - 26) -/

/-- Model of `tempfile::TempDir`: a successfully created ephemeral
directory, remembered by its path. -/
structure TempDirM where
  path : String
deriving DecidableEq, Repr

/-- The data a constructed `Pool` value holds: the root temp directory
(the cache map starts empty and lives in the transition system below). -/
structure PoolData where
  root : TempDirM
deriving DecidableEq, Repr

/-- Model of `Pool::new`: `TempDir::new().unwrap()` — an `Err` from temp-dir
creation panics the constructor; on `Ok(dir)` the pool holds that
directory as its root. -/
def poolNew (tempDir : Except String TempDirM) : PanicOr PoolData :=
  match tempDir with
  | .error _ => .panicked
  | .ok d => .ok { root := d }

/-! ### The single-flight cache as a transition system

`Pool::lookup_or_clone` (src/concurrent_git_pool/src/pool.rs lines 76 - 120)
runs under a `tokio::sync::Mutex` around the `HashMap<String, CacheEntry>`.
Each mutex-protected critical section, each progress event of the shared
clone future, and each await-completion is one atomic step of the system
below; the mutex is never held across a suspension, which is exactly why
configurations between steps are the observable states.

Handles model `Shared<...>` clone futures: allocated fresh by the vacant
branch, spawning the `git` process on first poll, resolving once with the
clone outcome for their remote (the `outcome` parameter gives, per remote,
the value `clone_repo` would settle with).  Ghost counters record process
spawns, vacant-branch installations, and `Available` insertions. -/

/-- One `CacheEntry`: `Cloning` holds the shared handle (by id),
`Available` holds the settled result
(src/concurrent_git_pool/src/pool.rs lines 144 - 148). -/
inductive EntryState
  | absent
  | cloning (h : Nat)
  | available (r : ServiceResult String)
deriving DecidableEq

/-- Lifecycle of one shared clone future. -/
inductive HandleState
  | unallocated
  | pending (remote : String)
  | running (remote : String)
  | resolved (remote : String) (r : ServiceResult String)
deriving DecidableEq

/-- The remote a handle was created for, if any. -/
def HandleState.remote : HandleState → Option String
  | .unallocated => none
  | .pending R => some R
  | .running R => some R
  | .resolved R _ => some R

/-- Control state of one task executing `lookup_or_clone`. -/
inductive TaskState
  | idle
  | ready (remote : String)
  | waiting (remote : String) (h : Nat)
  | installer (remote : String) (h : Nat)
  | done (remote : String) (r : ServiceResult String)
deriving DecidableEq

/-- Pointwise function update. -/
def upd {κ α : Type} [DecidableEq κ] (f : κ → α) (k : κ) (v : α) : κ → α :=
  fun k' => if k' = k then v else f k'

/-- A configuration of the pool and its callers. -/
structure Config where
  cache : String → EntryState
  handles : Nat → HandleState
  nextHandle : Nat
  spawns : String → Nat
  installs : String → Nat
  settles : String → Nat
  tasks : Nat → TaskState

/-- Initial configuration: empty cache, no handles, the given callers. -/
def initConfig (ts : Nat → TaskState) : Config :=
  { cache := fun _ => .absent
    handles := fun _ => .unallocated
    nextHandle := 0
    spawns := fun _ => 0
    installs := fun _ => 0
    settles := fun _ => 0
    tasks := ts }

/-- The initial tasks are callers about to run `lookup_or_clone` (or idle
bystanders). -/
def readyTasks (ts : Nat → TaskState) : Prop :=
  ∀ t, ts t = .idle ∨ ∃ R, ts t = .ready R

/-- One atomic step of the system.  `outcome R` is the settled value of the
clone future for remote `R` (the value produced by `clone_repo`). -/
inductive Step (outcome : String → ServiceResult String) : Config → Config → Prop
  /-- Critical section of `lookup_or_clone`, `Occupied(Available(p))`
  branch (pool.rs line 94): return the cached result. -/
  | hitAvailable (c : Config) (t : Nat) (R : String) (r : ServiceResult String) :
      c.tasks t = .ready R →
      c.cache R = .available r →
      Step outcome c { c with tasks := upd c.tasks t (.done R r) }
  /-- Critical section, `Occupied(Cloning(future))` branch (lines 95 - 99):
  clone the shared handle, drop the lock, start awaiting it. -/
  | hitCloning (c : Config) (t : Nat) (R : String) (h : Nat) :
      c.tasks t = .ready R →
      c.cache R = .cloning h →
      Step outcome c { c with tasks := upd c.tasks t (.waiting R h) }
  /-- Critical section, `Vacant` branch (lines 102 - 109): build the shared
  clone future, insert `Cloning`, drop the lock, start awaiting it. -/
  | install (c : Config) (t : Nat) (R : String) :
      c.tasks t = .ready R →
      c.cache R = .absent →
      Step outcome c
        { c with
          cache := upd c.cache R (.cloning c.nextHandle)
          handles := upd c.handles c.nextHandle (.pending R)
          nextHandle := c.nextHandle + 1
          installs := upd c.installs R (c.installs R + 1)
          tasks := upd c.tasks t (.installer R c.nextHandle) }
  /-- First poll of a shared clone future: the external `git clone` process
  is spawned (clone_repo, lines 129 - 136). -/
  | spawn (c : Config) (h : Nat) (R : String) :
      c.handles h = .pending R →
      Step outcome c
        { c with
          handles := upd c.handles h (.running R)
          spawns := upd c.spawns R (c.spawns R + 1) }
  /-- The external process exits; the shared future completes with the
  clone outcome, visible to every holder of the handle. -/
  | resolve (c : Config) (h : Nat) (R : String) :
      c.handles h = .running R →
      Step outcome c
        { c with handles := upd c.handles h (.resolved R (outcome R)) }
  /-- The installer's `request.await` returns `ret`; it reacquires the lock
  and replaces the entry with `Available(ret)` (lines 111 - 117). -/
  | settle (c : Config) (t : Nat) (R : String) (h : Nat) (R' : String)
      (r : ServiceResult String) :
      c.tasks t = .installer R h →
      c.handles h = .resolved R' r →
      Step outcome c
        { c with
          cache := upd c.cache R (.available r)
          settles := upd c.settles R (c.settles R + 1)
          tasks := upd c.tasks t (.done R r) }
  /-- A waiter's `future.await` returns the shared value (line 98). -/
  | waiterWake (c : Config) (t : Nat) (R : String) (h : Nat) (R' : String)
      (r : ServiceResult String) :
      c.tasks t = .waiting R h →
      c.handles h = .resolved R' r →
      Step outcome c { c with tasks := upd c.tasks t (.done R r) }

/-- Zero or more steps. -/
abbrev Reaches (outcome : String → ServiceResult String) : Config → Config → Prop :=
  Relation.ReflTransGen (Step outcome)

/-- Model of `Pool::lookup` (src/concurrent_git_pool/src/pool.rs lines 61 - 72): a
single critical section reading the entry; `Available(p)` gives `Some(p)`,
`Cloning` gives `None`, a missing entry gives `None`.  It is a pure
function of the configuration: it takes no step and returns no new
configuration. -/
def lookupFn (c : Config) (uri : String) : Option (ServiceResult String) :=
  match c.cache uri with
  | .available p => some p
  | .cloning _ => none
  | .absent => none

/-! ### The single-flight invariant -/

/-- The external process for handle `h` has been spawned on behalf of
remote `R`. -/
def spawnedFor (c : Config) (h : Nat) (R : String) : Prop :=
  c.handles h = .running R ∨ ∃ r, c.handles h = .resolved R r

/-- The inductive invariant of the single-flight cache. -/
structure Inv (outcome : String → ServiceResult String) (c : Config) : Prop where
  fresh : ∀ h, c.nextHandle ≤ h → c.handles h = .unallocated
  entry_cloning : ∀ R h, c.cache R = .cloning h → (c.handles h).remote = some R
  handle_unique : ∀ h h' R, (c.handles h).remote = some R →
      (c.handles h').remote = some R → h = h'
  handle_entry : ∀ h R, (c.handles h).remote = some R →
      c.cache R = .cloning h ∨ ∃ r, c.cache R = .available r
  installs0 : ∀ R, (∀ h, (c.handles h).remote ≠ some R) → c.installs R = 0
  installs1 : ∀ R h, (c.handles h).remote = some R → c.installs R = 1
  spawns0 : ∀ R, (∀ h, ¬ spawnedFor c h R) → c.spawns R = 0
  spawns1 : ∀ R h, spawnedFor c h R → c.spawns R = 1
  settles0 : ∀ R, (∀ r, c.cache R ≠ .available r) → c.settles R = 0
  settles1 : ∀ R r, c.cache R = .available r → c.settles R = 1
  installer_handle : ∀ t R h, c.tasks t = .installer R h →
      (c.handles h).remote = some R
  installer_unique : ∀ t t' R h h', c.tasks t = .installer R h →
      c.tasks t' = .installer R h' → t = t'
  avail_no_installer : ∀ R r, c.cache R = .available r →
      ∀ t h, c.tasks t ≠ .installer R h
  waiting_handle : ∀ t R h, c.tasks t = .waiting R h →
      (c.handles h).remote = some R
  resolved_val : ∀ h R r, c.handles h = .resolved R r → r = outcome R
  avail_val : ∀ R r, c.cache R = .available r → r = outcome R
  done_val : ∀ t R r, c.tasks t = .done R r → r = outcome R
  avail_resolved : ∀ R r, c.cache R = .available r →
      ∃ h, c.handles h = .resolved R (outcome R)
  done_installed : ∀ t R r, c.tasks t = .done R r → c.installs R = 1

theorem upd_self {κ α : Type} [DecidableEq κ] (f : κ → α) (k : κ) (v : α) :
    upd f k v k = v := by simp [upd]

theorem upd_other {κ α : Type} [DecidableEq κ] (f : κ → α) (k k' : κ) (v : α)
    (h : k' ≠ k) : upd f k v k' = f k' := by simp [upd, h]

/-- The invariant holds initially. -/
theorem inv_init (outcome : String → ServiceResult String)
    (ts : Nat → TaskState) (hts : readyTasks ts) :
    Inv outcome (initConfig ts) := by
  have htask : ∀ t R h, ts t ≠ .installer R h := by
    intro t R h hc
    rcases hts t with h1 | ⟨R', h1⟩ <;> simp [h1] at hc
  have hwait : ∀ t R h, ts t ≠ .waiting R h := by
    intro t R h hc
    rcases hts t with h1 | ⟨R', h1⟩ <;> simp [h1] at hc
  have hdone : ∀ t R r, ts t ≠ .done R r := by
    intro t R r hc
    rcases hts t with h1 | ⟨R', h1⟩ <;> simp [h1] at hc
  refine ⟨?_, ?_, ?_, ?_, ?_, ?_, ?_, ?_, ?_, ?_, ?_, ?_, ?_, ?_, ?_, ?_, ?_,
    ?_, ?_⟩ <;>
    simp_all [initConfig, HandleState.remote, spawnedFor]

theorem upd_eq_cases {κ α : Type} [DecidableEq κ] {f : κ → α} {k k' : κ}
    {v w : α} (h : upd f k v k' = w) :
    (k' = k ∧ v = w) ∨ (k' ≠ k ∧ f k' = w) := by
  by_cases he : k' = k
  · subst he; rw [upd_self] at h; exact Or.inl ⟨rfl, h⟩
  · rw [upd_other _ _ _ _ he] at h; exact Or.inr ⟨he, h⟩

theorem spawnedFor_remote {c : Config} {h : Nat} {R : String}
    (hs : spawnedFor c h R) : (c.handles h).remote = some R := by
  rcases hs with h1 | ⟨r, h1⟩ <;> simp [h1, HandleState.remote]

/-- Preservation: the `Occupied(Available)` branch. -/
theorem inv_hitAvailable (outcome : String → ServiceResult String)
    (c : Config) (t : Nat) (R : String) (r : ServiceResult String)
    (inv : Inv outcome c) (_ht : c.tasks t = .ready R)
    (hc : c.cache R = .available r) :
    Inv outcome { c with tasks := upd c.tasks t (.done R r) } := by
  refine ⟨inv.fresh, inv.entry_cloning, inv.handle_unique, inv.handle_entry,
    inv.installs0, inv.installs1, inv.spawns0, inv.spawns1, inv.settles0,
    inv.settles1, ?_, ?_, ?_, ?_, inv.resolved_val, inv.avail_val, ?_,
    inv.avail_resolved, ?_⟩
  · intro t' R' h' hi
    rcases upd_eq_cases hi with ⟨he, hv⟩ | ⟨hne, hv⟩
    · exact absurd hv (by simp)
    · exact inv.installer_handle t' R' h' hv
  · intro t1 t2 R' h1 h2 hi1 hi2
    rcases upd_eq_cases hi1 with ⟨he1, hv1⟩ | ⟨hne1, hv1⟩
    · exact absurd hv1 (by simp)
    rcases upd_eq_cases hi2 with ⟨he2, hv2⟩ | ⟨hne2, hv2⟩
    · exact absurd hv2 (by simp)
    exact inv.installer_unique t1 t2 R' h1 h2 hv1 hv2
  · intro R' r' hc' t' h' hi
    rcases upd_eq_cases hi with ⟨he, hv⟩ | ⟨hne, hv⟩
    · exact absurd hv.symm (by simp)
    · exact inv.avail_no_installer R' r' hc' t' h' hv
  · intro t' R' h' hw
    rcases upd_eq_cases hw with ⟨he, hv⟩ | ⟨hne, hv⟩
    · exact absurd hv (by simp)
    · exact inv.waiting_handle t' R' h' hv
  · intro t' R' r' hd
    rcases upd_eq_cases hd with ⟨he, hv⟩ | ⟨hne, hv⟩
    · cases hv
      exact inv.avail_val R r hc
    · exact inv.done_val t' R' r' hv
  · intro t' R' r' hd
    rcases upd_eq_cases hd with ⟨he, hv⟩ | ⟨hne, hv⟩
    · cases hv
      obtain ⟨h0, hres⟩ := inv.avail_resolved R r hc
      exact inv.installs1 R h0 (by simp [hres, HandleState.remote])
    · exact inv.done_installed t' R' r' hv

/-- Preservation: the `Occupied(Cloning)` branch. -/
theorem inv_hitCloning (outcome : String → ServiceResult String)
    (c : Config) (t : Nat) (R : String) (h : Nat)
    (inv : Inv outcome c) (_ht : c.tasks t = .ready R)
    (hc : c.cache R = .cloning h) :
    Inv outcome { c with tasks := upd c.tasks t (.waiting R h) } := by
  refine ⟨inv.fresh, inv.entry_cloning, inv.handle_unique, inv.handle_entry,
    inv.installs0, inv.installs1, inv.spawns0, inv.spawns1, inv.settles0,
    inv.settles1, ?_, ?_, ?_, ?_, inv.resolved_val, inv.avail_val, ?_,
    inv.avail_resolved, ?_⟩
  · intro t' R' h' hi
    rcases upd_eq_cases hi with ⟨he, hv⟩ | ⟨hne, hv⟩
    · exact absurd hv (by simp)
    · exact inv.installer_handle t' R' h' hv
  · intro t1 t2 R' h1 h2 hi1 hi2
    rcases upd_eq_cases hi1 with ⟨he1, hv1⟩ | ⟨hne1, hv1⟩
    · exact absurd hv1 (by simp)
    rcases upd_eq_cases hi2 with ⟨he2, hv2⟩ | ⟨hne2, hv2⟩
    · exact absurd hv2 (by simp)
    exact inv.installer_unique t1 t2 R' h1 h2 hv1 hv2
  · intro R' r' hc' t' h' hi
    rcases upd_eq_cases hi with ⟨he, hv⟩ | ⟨hne, hv⟩
    · exact absurd hv.symm (by simp)
    · exact inv.avail_no_installer R' r' hc' t' h' hv
  · intro t' R' h' hw
    rcases upd_eq_cases hw with ⟨he, hv⟩ | ⟨hne, hv⟩
    · cases hv
      exact inv.entry_cloning R h hc
    · exact inv.waiting_handle t' R' h' hv
  · intro t' R' r' hd
    rcases upd_eq_cases hd with ⟨he, hv⟩ | ⟨hne, hv⟩
    · exact absurd hv (by simp)
    · exact inv.done_val t' R' r' hv
  · intro t' R' r' hd
    rcases upd_eq_cases hd with ⟨he, hv⟩ | ⟨hne, hv⟩
    · exact absurd hv (by simp)
    · exact inv.done_installed t' R' r' hv

/-- Preservation: a waiter wakes with the shared value. -/
theorem inv_waiterWake (outcome : String → ServiceResult String)
    (c : Config) (t : Nat) (R : String) (h : Nat) (R' : String)
    (r : ServiceResult String) (inv : Inv outcome c)
    (ht : c.tasks t = .waiting R h) (hr : c.handles h = .resolved R' r) :
    Inv outcome { c with tasks := upd c.tasks t (.done R r) } := by
  have hrem : (c.handles h).remote = some R := inv.waiting_handle t R h ht
  have hRR : R' = R := by
    rw [hr] at hrem; simpa [HandleState.remote] using hrem
  subst hRR
  have hval : r = outcome R' := inv.resolved_val h R' r hr
  refine ⟨inv.fresh, inv.entry_cloning, inv.handle_unique, inv.handle_entry,
    inv.installs0, inv.installs1, inv.spawns0, inv.spawns1, inv.settles0,
    inv.settles1, ?_, ?_, ?_, ?_, inv.resolved_val, inv.avail_val, ?_,
    inv.avail_resolved, ?_⟩
  · intro t' R'' h' hi
    rcases upd_eq_cases hi with ⟨he, hv⟩ | ⟨hne, hv⟩
    · exact absurd hv (by simp)
    · exact inv.installer_handle t' R'' h' hv
  · intro t1 t2 R'' h1 h2 hi1 hi2
    rcases upd_eq_cases hi1 with ⟨he1, hv1⟩ | ⟨hne1, hv1⟩
    · exact absurd hv1 (by simp)
    rcases upd_eq_cases hi2 with ⟨he2, hv2⟩ | ⟨hne2, hv2⟩
    · exact absurd hv2 (by simp)
    exact inv.installer_unique t1 t2 R'' h1 h2 hv1 hv2
  · intro R'' r'' hc' t' h' hi
    rcases upd_eq_cases hi with ⟨he, hv⟩ | ⟨hne, hv⟩
    · exact absurd hv.symm (by simp)
    · exact inv.avail_no_installer R'' r'' hc' t' h' hv
  · intro t' R'' h' hw
    rcases upd_eq_cases hw with ⟨he, hv⟩ | ⟨hne, hv⟩
    · exact absurd hv (by simp)
    · exact inv.waiting_handle t' R'' h' hv
  · intro t' R'' r'' hd
    rcases upd_eq_cases hd with ⟨he, hv⟩ | ⟨hne, hv⟩
    · cases hv
      exact hval
    · exact inv.done_val t' R'' r'' hv
  · intro t' R'' r'' hd
    rcases upd_eq_cases hd with ⟨he, hv⟩ | ⟨hne, hv⟩
    · cases hv
      exact inv.installs1 R' h hrem
    · exact inv.done_installed t' R'' r'' hv

/-- Preservation: the `Vacant` branch installs the shared clone future. -/
theorem inv_install (outcome : String → ServiceResult String)
    (c : Config) (t : Nat) (R : String)
    (inv : Inv outcome c) (ht : c.tasks t = .ready R)
    (hc : c.cache R = .absent) :
    Inv outcome
      { c with
        cache := upd c.cache R (.cloning c.nextHandle)
        handles := upd c.handles c.nextHandle (.pending R)
        nextHandle := c.nextHandle + 1
        installs := upd c.installs R (c.installs R + 1)
        tasks := upd c.tasks t (.installer R c.nextHandle) } := by
  have hfresh : c.handles c.nextHandle = .unallocated := inv.fresh _ le_rfl
  have hnoR : ∀ h', (c.handles h').remote ≠ some R := by
    intro h' hcon
    rcases inv.handle_entry h' R hcon with h1 | ⟨r, h1⟩ <;>
      rw [hc] at h1 <;> simp at h1
  have hinst0 : c.installs R = 0 := inv.installs0 R hnoR
  have hnodone : ∀ t' r, c.tasks t' ≠ .done R r := by
    intro t' r hcon
    have h1 := inv.done_installed t' R r hcon
    omega
  have hnoinst : ∀ t' h', c.tasks t' ≠ .installer R h' := by
    intro t' h' hcon
    exact hnoR h' (inv.installer_handle t' R h' hcon)
  refine ⟨?_, ?_, ?_, ?_, ?_, ?_, ?_, ?_, ?_, ?_, ?_, ?_, ?_, ?_, ?_, ?_, ?_,
    ?_, ?_⟩ <;> dsimp only
  · -- fresh
    intro h' hge
    rw [upd_other _ _ _ _ (by omega : h' ≠ c.nextHandle)]
    exact inv.fresh h' (by omega)
  · -- entry_cloning
    intro R' h' hcl
    rcases upd_eq_cases hcl with ⟨heR, hv⟩ | ⟨hne, hv⟩
    · cases hv
      subst heR
      rw [upd_self]
      simp [HandleState.remote]
    · have hrm := inv.entry_cloning R' h' hv
      have hne' : h' ≠ c.nextHandle := by
        intro he
        rw [he, hfresh] at hrm
        simp [HandleState.remote] at hrm
      rw [upd_other _ _ _ _ hne']
      exact hrm
  · -- handle_unique
    intro h1 h2 R' hr1 hr2
    by_cases e1 : h1 = c.nextHandle <;> by_cases e2 : h2 = c.nextHandle
    · rw [e1, e2]
    · rw [e1, upd_self] at hr1
      simp [HandleState.remote] at hr1
      rw [upd_other _ _ _ _ e2] at hr2
      exact absurd (hr1 ▸ hr2) (hnoR h2)
    · rw [e2, upd_self] at hr2
      simp [HandleState.remote] at hr2
      rw [upd_other _ _ _ _ e1] at hr1
      exact absurd (hr2 ▸ hr1) (hnoR h1)
    · rw [upd_other _ _ _ _ e1] at hr1
      rw [upd_other _ _ _ _ e2] at hr2
      exact inv.handle_unique h1 h2 R' hr1 hr2
  · -- handle_entry
    intro h' R' hr
    by_cases e : h' = c.nextHandle
    · subst e
      rw [upd_self] at hr
      simp [HandleState.remote] at hr
      subst hr
      left
      rw [upd_self]
    · rw [upd_other _ _ _ _ e] at hr
      have hR'ne : R' ≠ R := fun he => hnoR h' (he ▸ hr)
      rcases inv.handle_entry h' R' hr with h1 | ⟨r, h1⟩
      · left
        rw [upd_other _ _ _ _ hR'ne]
        exact h1
      · right
        exact ⟨r, by rw [upd_other _ _ _ _ hR'ne]; exact h1⟩
  · -- installs0
    intro R' hall
    by_cases e : R' = R
    · exact absurd (by rw [upd_self]; simp [HandleState.remote, e]) (hall c.nextHandle)
    · rw [upd_other _ _ _ _ e]
      apply inv.installs0 R'
      intro h' hcon
      by_cases e2 : h' = c.nextHandle
      · rw [e2, hfresh] at hcon
        simp [HandleState.remote] at hcon
      · exact hall h' (by rw [upd_other _ _ _ _ e2]; exact hcon)
  · -- installs1
    intro R' h' hr
    by_cases e : h' = c.nextHandle
    · rw [e, upd_self] at hr
      simp [HandleState.remote] at hr
      subst hr
      rw [upd_self, hinst0]
    · rw [upd_other _ _ _ _ e] at hr
      have hne : R' ≠ R := fun he => hnoR h' (he ▸ hr)
      rw [upd_other _ _ _ _ hne]
      exact inv.installs1 R' h' hr
  · -- spawns0
    intro R' hall
    apply inv.spawns0 R'
    intro h' hcon
    by_cases e : h' = c.nextHandle
    · rcases hcon with h1 | ⟨r1, h1⟩ <;> rw [e, hfresh] at h1 <;> simp at h1
    · apply hall h'
      dsimp only [spawnedFor]
      rcases hcon with h1 | ⟨r1, h1⟩
      · exact Or.inl (by rw [upd_other _ _ _ _ e]; exact h1)
      · exact Or.inr ⟨r1, by rw [upd_other _ _ _ _ e]; exact h1⟩
  · -- spawns1
    intro R' h' hs
    dsimp only [spawnedFor] at hs
    by_cases e : h' = c.nextHandle
    · rcases hs with h1 | ⟨r1, h1⟩ <;> rw [e, upd_self] at h1 <;> simp at h1
    · have hs' : spawnedFor c h' R' := by
        rcases hs with h1 | ⟨r1, h1⟩
        · exact Or.inl (by rw [upd_other _ _ _ _ e] at h1; exact h1)
        · exact Or.inr ⟨r1, by rw [upd_other _ _ _ _ e] at h1; exact h1⟩
      exact inv.spawns1 R' h' hs'
  · -- settles0
    intro R' hnav
    apply inv.settles0 R'
    intro r hcon
    by_cases e : R' = R
    · rw [e, hc] at hcon
      simp at hcon
    · exact hnav r (by rw [upd_other _ _ _ _ e]; exact hcon)
  · -- settles1
    intro R' r hcav
    rcases upd_eq_cases hcav with ⟨e, hv⟩ | ⟨e, hv⟩
    · simp at hv
    · exact inv.settles1 R' r hv
  · -- installer_handle
    intro t' R' h' hi
    rcases upd_eq_cases hi with ⟨het, hv⟩ | ⟨hnet, hv⟩
    · cases hv
      rw [upd_self]
      simp [HandleState.remote]
    · have hrm := inv.installer_handle t' R' h' hv
      have e : h' ≠ c.nextHandle := by
        intro he
        rw [he, hfresh] at hrm
        simp [HandleState.remote] at hrm
      rw [upd_other _ _ _ _ e]
      exact hrm
  · -- installer_unique
    intro t1 t2 R' h1 h2 hi1 hi2
    rcases upd_eq_cases hi1 with ⟨he1, hv1⟩ | ⟨hne1, hv1⟩ <;>
      rcases upd_eq_cases hi2 with ⟨he2, hv2⟩ | ⟨hne2, hv2⟩
    · rw [he1, he2]
    · cases hv1
      exact absurd hv2 (hnoinst t2 h2)
    · cases hv2
      exact absurd hv1 (hnoinst t1 h1)
    · exact inv.installer_unique t1 t2 R' h1 h2 hv1 hv2
  · -- avail_no_installer
    intro R' r hcav t' h' hi
    rcases upd_eq_cases hcav with ⟨e, hv⟩ | ⟨e, hv⟩
    · simp at hv
    · rcases upd_eq_cases hi with ⟨het, hv2⟩ | ⟨hnet, hv2⟩
      · cases hv2
        exact e rfl
      · exact inv.avail_no_installer R' r hv t' h' hv2
  · -- waiting_handle
    intro t' R' h' hw
    rcases upd_eq_cases hw with ⟨het, hv⟩ | ⟨hnet, hv⟩
    · exact absurd hv (by simp)
    · have hrm := inv.waiting_handle t' R' h' hv
      have e : h' ≠ c.nextHandle := by
        intro he
        rw [he, hfresh] at hrm
        simp [HandleState.remote] at hrm
      rw [upd_other _ _ _ _ e]
      exact hrm
  · -- resolved_val
    intro h' R' r hres
    rcases upd_eq_cases hres with ⟨e, hv⟩ | ⟨e, hv⟩
    · simp at hv
    · exact inv.resolved_val h' R' r hv
  · -- avail_val
    intro R' r hcav
    rcases upd_eq_cases hcav with ⟨e, hv⟩ | ⟨e, hv⟩
    · simp at hv
    · exact inv.avail_val R' r hv
  · -- done_val
    intro t' R' r hd
    rcases upd_eq_cases hd with ⟨e, hv⟩ | ⟨e, hv⟩
    · exact absurd hv (by simp)
    · exact inv.done_val t' R' r hv
  · -- avail_resolved
    intro R' r hcav
    rcases upd_eq_cases hcav with ⟨e, hv⟩ | ⟨e, hv⟩
    · simp at hv
    · obtain ⟨h0, hres⟩ := inv.avail_resolved R' r hv
      have e0 : h0 ≠ c.nextHandle := by
        intro he
        rw [he, hfresh] at hres
        simp at hres
      exact ⟨h0, by rw [upd_other _ _ _ _ e0]; exact hres⟩
  · -- done_installed
    intro t' R' r hd
    rcases upd_eq_cases hd with ⟨e, hv⟩ | ⟨e, hv⟩
    · exact absurd hv (by simp)
    · have h1 := inv.done_installed t' R' r hv
      have hne : R' ≠ R := fun he => hnodone t' r (he ▸ hv)
      rw [upd_other _ _ _ _ hne]
      exact h1

/-- Preservation: first poll of a shared clone future spawns the process. -/
theorem inv_spawn (outcome : String → ServiceResult String)
    (c : Config) (h : Nat) (R : String)
    (inv : Inv outcome c) (hp : c.handles h = .pending R) :
    Inv outcome
      { c with
        handles := upd c.handles h (.running R)
        spawns := upd c.spawns R (c.spawns R + 1) } := by
  have hrem : (c.handles h).remote = some R := by
    rw [hp]; rfl
  have hrem_eq : ∀ h',
      (upd c.handles h (HandleState.running R) h').remote =
        (c.handles h').remote := by
    intro h'
    by_cases e : h' = h
    · subst e
      rw [upd_self, hp]
      rfl
    · rw [upd_other _ _ _ _ e]
  have hnospawnR : ∀ h'', ¬ spawnedFor c h'' R := by
    intro h'' hsf
    have h1 := spawnedFor_remote hsf
    have h2 := inv.handle_unique h'' h R h1 hrem
    subst h2
    rcases hsf with h3 | ⟨r3, h3⟩ <;> rw [hp] at h3 <;> simp at h3
  have hsp0 : c.spawns R = 0 := inv.spawns0 R hnospawnR
  refine ⟨?_, ?_, ?_, ?_, ?_, ?_, ?_, ?_, ?_, ?_, ?_, ?_, ?_, ?_, ?_, ?_, ?_,
    ?_, ?_⟩ <;> dsimp only
  · -- fresh
    intro h' hge
    have e : h' ≠ h := by
      intro he
      have h1 := inv.fresh h' hge
      rw [he, hp] at h1
      simp at h1
    rw [upd_other _ _ _ _ e]
    exact inv.fresh h' hge
  · -- entry_cloning
    intro R' h' hcl
    rw [hrem_eq h']
    exact inv.entry_cloning R' h' hcl
  · -- handle_unique
    intro h1 h2 R' hr1 hr2
    rw [hrem_eq h1] at hr1
    rw [hrem_eq h2] at hr2
    exact inv.handle_unique h1 h2 R' hr1 hr2
  · -- handle_entry
    intro h' R' hr
    rw [hrem_eq h'] at hr
    exact inv.handle_entry h' R' hr
  · -- installs0
    intro R' hall
    apply inv.installs0 R'
    intro h'
    rw [← hrem_eq h']
    exact hall h'
  · -- installs1
    intro R' h' hr
    rw [hrem_eq h'] at hr
    exact inv.installs1 R' h' hr
  · -- spawns0
    intro R' hall
    by_cases e : R' = R
    · subst e
      exact absurd (Or.inl (upd_self c.handles h _)) (hall h)
    · rw [upd_other _ _ _ _ e]
      apply inv.spawns0 R'
      intro h'' hsf
      apply hall h''
      dsimp only [spawnedFor]
      by_cases e2 : h'' = h
      · exfalso
        have hr2 := spawnedFor_remote hsf
        rw [e2, hrem] at hr2
        injection hr2 with hv
        exact e hv.symm
      · rcases hsf with h1 | ⟨r1, h1⟩
        · exact Or.inl (by rw [upd_other _ _ _ _ e2]; exact h1)
        · exact Or.inr ⟨r1, by rw [upd_other _ _ _ _ e2]; exact h1⟩
  · -- spawns1
    intro R' h'' hsf
    dsimp only [spawnedFor] at hsf
    by_cases e2 : h'' = h
    · subst e2
      rw [upd_self] at hsf
      rcases hsf with h1 | ⟨r1, h1⟩
      · cases h1
        rw [upd_self, hsp0]
      · simp at h1
    · rw [upd_other _ _ _ _ e2] at hsf
      have hs' : spawnedFor c h'' R' := hsf
      have hne : R' ≠ R := fun he => hnospawnR h'' (he ▸ hs')
      rw [upd_other _ _ _ _ hne]
      exact inv.spawns1 R' h'' hs'
  · exact inv.settles0
  · exact inv.settles1
  · -- installer_handle
    intro t' R' h' hi
    rw [hrem_eq h']
    exact inv.installer_handle t' R' h' hi
  · exact inv.installer_unique
  · exact inv.avail_no_installer
  · -- waiting_handle
    intro t' R' h' hw
    rw [hrem_eq h']
    exact inv.waiting_handle t' R' h' hw
  · -- resolved_val
    intro h' R' r hres
    by_cases e : h' = h
    · subst e
      rw [upd_self] at hres
      simp at hres
    · rw [upd_other _ _ _ _ e] at hres
      exact inv.resolved_val h' R' r hres
  · exact inv.avail_val
  · exact inv.done_val
  · -- avail_resolved
    intro R' r hcav
    obtain ⟨h0, hres⟩ := inv.avail_resolved R' r hcav
    have e : h0 ≠ h := by
      intro he
      rw [he, hp] at hres
      simp at hres
    exact ⟨h0, by rw [upd_other _ _ _ _ e]; exact hres⟩
  · exact inv.done_installed

/-- Preservation: the external process exits and the future resolves. -/
theorem inv_resolve (outcome : String → ServiceResult String)
    (c : Config) (h : Nat) (R : String)
    (inv : Inv outcome c) (hp : c.handles h = .running R) :
    Inv outcome
      { c with handles := upd c.handles h (.resolved R (outcome R)) } := by
  have hrem : (c.handles h).remote = some R := by
    rw [hp]; rfl
  have hrem_eq : ∀ h',
      (upd c.handles h (HandleState.resolved R (outcome R)) h').remote =
        (c.handles h').remote := by
    intro h'
    by_cases e : h' = h
    · subst e
      rw [upd_self, hp]
      rfl
    · rw [upd_other _ _ _ _ e]
  refine ⟨?_, ?_, ?_, ?_, ?_, ?_, ?_, ?_, ?_, ?_, ?_, ?_, ?_, ?_, ?_, ?_, ?_,
    ?_, ?_⟩ <;> dsimp only
  · -- fresh
    intro h' hge
    have e : h' ≠ h := by
      intro he
      have h1 := inv.fresh h' hge
      rw [he, hp] at h1
      simp at h1
    rw [upd_other _ _ _ _ e]
    exact inv.fresh h' hge
  · -- entry_cloning
    intro R' h' hcl
    rw [hrem_eq h']
    exact inv.entry_cloning R' h' hcl
  · -- handle_unique
    intro h1 h2 R' hr1 hr2
    rw [hrem_eq h1] at hr1
    rw [hrem_eq h2] at hr2
    exact inv.handle_unique h1 h2 R' hr1 hr2
  · -- handle_entry
    intro h' R' hr
    rw [hrem_eq h'] at hr
    exact inv.handle_entry h' R' hr
  · -- installs0
    intro R' hall
    apply inv.installs0 R'
    intro h'
    rw [← hrem_eq h']
    exact hall h'
  · -- installs1
    intro R' h' hr
    rw [hrem_eq h'] at hr
    exact inv.installs1 R' h' hr
  · -- spawns0
    intro R' hall
    apply inv.spawns0 R'
    intro h'' hsf
    apply hall h''
    dsimp only [spawnedFor]
    by_cases e2 : h'' = h
    · subst e2
      have hr2 := spawnedFor_remote hsf
      rw [hrem] at hr2
      injection hr2 with hv
      subst hv
      exact Or.inr ⟨outcome R, by rw [upd_self]⟩
    · rcases hsf with h1 | ⟨r1, h1⟩
      · exact Or.inl (by rw [upd_other _ _ _ _ e2]; exact h1)
      · exact Or.inr ⟨r1, by rw [upd_other _ _ _ _ e2]; exact h1⟩
  · -- spawns1
    intro R' h'' hsf
    dsimp only [spawnedFor] at hsf
    by_cases e2 : h'' = h
    · subst e2
      rw [upd_self] at hsf
      rcases hsf with h1 | ⟨r1, h1⟩
      · simp at h1
      · cases h1
        exact inv.spawns1 R h'' (Or.inl hp)
    · rw [upd_other _ _ _ _ e2] at hsf
      exact inv.spawns1 R' h'' hsf
  · exact inv.settles0
  · exact inv.settles1
  · -- installer_handle
    intro t' R' h' hi
    rw [hrem_eq h']
    exact inv.installer_handle t' R' h' hi
  · exact inv.installer_unique
  · exact inv.avail_no_installer
  · -- waiting_handle
    intro t' R' h' hw
    rw [hrem_eq h']
    exact inv.waiting_handle t' R' h' hw
  · -- resolved_val
    intro h' R' r hres
    by_cases e : h' = h
    · subst e
      rw [upd_self] at hres
      cases hres
      rfl
    · rw [upd_other _ _ _ _ e] at hres
      exact inv.resolved_val h' R' r hres
  · exact inv.avail_val
  · exact inv.done_val
  · -- avail_resolved
    intro R' r hcav
    obtain ⟨h0, hres⟩ := inv.avail_resolved R' r hcav
    have e : h0 ≠ h := by
      intro he
      rw [he, hp] at hres
      simp at hres
    exact ⟨h0, by rw [upd_other _ _ _ _ e]; exact hres⟩
  · exact inv.done_installed

/-- Preservation: the installer settles the entry with the shared value. -/
theorem inv_settle (outcome : String → ServiceResult String)
    (c : Config) (t : Nat) (R : String) (h : Nat) (R' : String)
    (r : ServiceResult String) (inv : Inv outcome c)
    (ht : c.tasks t = .installer R h) (hr : c.handles h = .resolved R' r) :
    Inv outcome
      { c with
        cache := upd c.cache R (.available r)
        settles := upd c.settles R (c.settles R + 1)
        tasks := upd c.tasks t (.done R r) } := by
  have hremh : (c.handles h).remote = some R := inv.installer_handle t R h ht
  have hRR : R' = R := by
    rw [hr] at hremh
    simpa [HandleState.remote] using hremh
  subst hRR
  have hremh' : (c.handles h).remote = some R' := by
    rw [hr]; rfl
  have hval : r = outcome R' := inv.resolved_val h R' r hr
  have hnotavail : ∀ r0, c.cache R' ≠ .available r0 := by
    intro r0 hcv
    exact inv.avail_no_installer R' r0 hcv t h ht
  have hsett0 : c.settles R' = 0 := inv.settles0 R' hnotavail
  refine ⟨?_, ?_, ?_, ?_, ?_, ?_, ?_, ?_, ?_, ?_, ?_, ?_, ?_, ?_, ?_, ?_, ?_,
    ?_, ?_⟩ <;> dsimp only
  · exact inv.fresh
  · -- entry_cloning
    intro R'' h'' hcl
    rcases upd_eq_cases hcl with ⟨e, hv⟩ | ⟨e, hv⟩
    · simp at hv
    · exact inv.entry_cloning R'' h'' hv
  · exact inv.handle_unique
  · -- handle_entry
    intro h'' R'' hrm
    by_cases e : R'' = R'
    · subst e
      right
      exact ⟨r, upd_self c.cache R'' _⟩
    · rcases inv.handle_entry h'' R'' hrm with h1 | ⟨r1, h1⟩
      · left
        rw [upd_other _ _ _ _ e]
        exact h1
      · right
        exact ⟨r1, by rw [upd_other _ _ _ _ e]; exact h1⟩
  · exact inv.installs0
  · exact inv.installs1
  · exact inv.spawns0
  · exact inv.spawns1
  · -- settles0
    intro R'' hnav
    by_cases e : R'' = R'
    · subst e
      exact absurd (upd_self c.cache R'' _) (hnav r)
    · rw [upd_other _ _ _ _ e]
      apply inv.settles0 R''
      intro r0 hcon
      exact hnav r0 (by rw [upd_other _ _ _ _ e]; exact hcon)
  · -- settles1
    intro R'' r'' hcav
    rcases upd_eq_cases hcav with ⟨e, hv⟩ | ⟨e, hv⟩
    · cases hv
      rw [e, upd_self, hsett0]
    · rw [upd_other _ _ _ _ e]
      exact inv.settles1 R'' r'' hv
  · -- installer_handle
    intro t' R'' h'' hi
    rcases upd_eq_cases hi with ⟨e, hv⟩ | ⟨e, hv⟩
    · exact absurd hv (by simp)
    · exact inv.installer_handle t' R'' h'' hv
  · -- installer_unique
    intro t1 t2 R'' h1 h2 hi1 hi2
    rcases upd_eq_cases hi1 with ⟨he1, hv1⟩ | ⟨hne1, hv1⟩
    · exact absurd hv1 (by simp)
    rcases upd_eq_cases hi2 with ⟨he2, hv2⟩ | ⟨hne2, hv2⟩
    · exact absurd hv2 (by simp)
    exact inv.installer_unique t1 t2 R'' h1 h2 hv1 hv2
  · -- avail_no_installer
    intro R'' r'' hcav t' h'' hi
    rcases upd_eq_cases hi with ⟨e, hv⟩ | ⟨e, hv⟩
    · exact absurd hv (by simp)
    · rcases upd_eq_cases hcav with ⟨e2, hv2⟩ | ⟨e2, hv2⟩
      · exact e (inv.installer_unique t' t R' h'' h (e2 ▸ hv) ht)
      · exact inv.avail_no_installer R'' r'' hv2 t' h'' hv
  · -- waiting_handle
    intro t' R'' h'' hw
    rcases upd_eq_cases hw with ⟨e, hv⟩ | ⟨e, hv⟩
    · exact absurd hv (by simp)
    · exact inv.waiting_handle t' R'' h'' hv
  · exact inv.resolved_val
  · -- avail_val
    intro R'' r'' hcav
    rcases upd_eq_cases hcav with ⟨e, hv⟩ | ⟨e, hv⟩
    · cases hv
      rw [e]
      exact hval
    · exact inv.avail_val R'' r'' hv
  · -- done_val
    intro t' R'' r'' hd
    rcases upd_eq_cases hd with ⟨e, hv⟩ | ⟨e, hv⟩
    · cases hv
      exact hval
    · exact inv.done_val t' R'' r'' hv
  · -- avail_resolved
    intro R'' r'' hcav
    rcases upd_eq_cases hcav with ⟨e, hv⟩ | ⟨e, hv⟩
    · subst e
      exact ⟨h, by rw [← hval]; exact hr⟩
    · exact inv.avail_resolved R'' r'' hv
  · -- done_installed
    intro t' R'' r'' hd
    rcases upd_eq_cases hd with ⟨e, hv⟩ | ⟨e, hv⟩
    · cases hv
      exact inv.installs1 R' h hremh'
    · exact inv.done_installed t' R'' r'' hv

/-- The invariant is preserved by every step. -/
theorem inv_step (outcome : String → ServiceResult String) {c c' : Config}
    (inv : Inv outcome c) (hs : Step outcome c c') : Inv outcome c' := by
  cases hs with
  | hitAvailable t R r ht hc => exact inv_hitAvailable outcome c t R r inv ht hc
  | hitCloning t R h ht hc => exact inv_hitCloning outcome c t R h inv ht hc
  | install t R ht hc => exact inv_install outcome c t R inv ht hc
  | spawn h R hp => exact inv_spawn outcome c h R inv hp
  | resolve h R hp => exact inv_resolve outcome c h R inv hp
  | settle t R h R' r ht hr => exact inv_settle outcome c t R h R' r inv ht hr
  | waiterWake t R h R' r ht hr =>
    exact inv_waiterWake outcome c t R h R' r inv ht hr

/-- The invariant holds in every reachable configuration. -/
theorem inv_reaches (outcome : String → ServiceResult String)
    (ts : Nat → TaskState) (hts : readyTasks ts) {c : Config}
    (hr : Reaches outcome (initConfig ts) c) : Inv outcome c := by
  induction hr with
  | refl => exact inv_init outcome ts hts
  | tail _hab hbc ih => exact inv_step outcome ih hbc

/-- Admissible one-step evolutions of a cache entry: stay put, go from
absent to in-flight, or go from in-flight to settled. -/
def entryStepOk (a b : EntryState) : Prop :=
  a = b ∨ (a = .absent ∧ ∃ h, b = .cloning h) ∨
    (∃ h r, a = .cloning h ∧ b = .available r)

/-- Admissible multi-step evolutions: an absent entry may become anything,
an in-flight entry may only stay or settle, a settled entry is frozen with
its value. -/
def entryLe : EntryState → EntryState → Prop
  | .absent, _ => True
  | .cloning h, b => b = .cloning h ∨ ∃ r, b = .available r
  | .available r, b => b = .available r

theorem entryLe_refl (a : EntryState) : entryLe a a := by
  cases a <;> simp [entryLe]

theorem entryLe_of_stepOk {a b : EntryState} (h : entryStepOk a b) :
    entryLe a b := by
  rcases h with h | ⟨h1, h2, h3⟩ | ⟨h1, h2, h3, h4⟩
  · rw [h]; exact entryLe_refl b
  · rw [h1]; trivial
  · rw [h3, h4]; exact Or.inr ⟨h2, rfl⟩

theorem entryLe_trans {a b c : EntryState} (h1 : entryLe a b)
    (h2 : entryLe b c) : entryLe a c := by
  cases a with
  | absent => trivial
  | cloning h =>
    rcases h1 with h1 | ⟨r, h1⟩
    · rw [h1] at h2; exact h2
    · rw [h1] at h2; exact Or.inr ⟨r, h2⟩
  | available r =>
    rw [h1] at h2; exact h2

/-- Every step moves every cache entry along the admissible one-step
relation. -/
theorem step_entryStepOk (outcome : String → ServiceResult String)
    {c c' : Config} (inv : Inv outcome c) (hs : Step outcome c c')
    (R : String) : entryStepOk (c.cache R) (c'.cache R) := by
  cases hs with
  | hitAvailable t R0 r ht hc => exact Or.inl rfl
  | hitCloning t R0 h ht hc => exact Or.inl rfl
  | install t R0 ht hc =>
    by_cases e : R = R0
    · subst e
      refine Or.inr (Or.inl ⟨hc, c.nextHandle, ?_⟩)
      exact upd_self c.cache R _
    · exact Or.inl (by dsimp only; rw [upd_other _ _ _ _ e])
  | spawn h R0 hp => exact Or.inl rfl
  | resolve h R0 hp => exact Or.inl rfl
  | settle t R0 h R' r ht hr =>
    by_cases e : R = R0
    · subst e
      have hremh : (c.handles h).remote = some R := inv.installer_handle t R h ht
      rcases inv.handle_entry h R hremh with hcl | ⟨r1, hav⟩
      · exact Or.inr (Or.inr ⟨h, r, hcl, upd_self c.cache R _⟩)
      · exact absurd ht (inv.avail_no_installer R r1 hav t h)
    · exact Or.inl (by dsimp only; rw [upd_other _ _ _ _ e])
  | waiterWake t R0 h R' r ht hr => exact Or.inl rfl

/-- Over any run from an invariant configuration, every cache entry moves
only along the admissible multi-step relation, and the invariant is kept. -/
theorem reaches_entryLe (outcome : String → ServiceResult String)
    {c c' : Config} (inv : Inv outcome c) (hr : Reaches outcome c c') :
    Inv outcome c' ∧ ∀ R, entryLe (c.cache R) (c'.cache R) := by
  induction hr with
  | refl => exact ⟨inv, fun R => entryLe_refl _⟩
  | tail _hab hbc ih =>
    refine ⟨inv_step outcome ih.1 hbc, fun R => ?_⟩
    exact entryLe_trans (ih.2 R)
      (entryLe_of_stepOk (step_entryStepOk outcome ih.1 hbc R))

/-- A step never changes the spawn count of a remote whose entry is
already settled. -/
theorem step_spawns_settled (outcome : String → ServiceResult String)
    {c c' : Config} (inv : Inv outcome c) (hs : Step outcome c c')
    (R : String) (r : ServiceResult String)
    (hav : c.cache R = .available r) : c'.spawns R = c.spawns R := by
  cases hs with
  | hitAvailable t R0 r0 ht hc => rfl
  | hitCloning t R0 h ht hc => rfl
  | install t R0 ht hc => rfl
  | spawn h R0 hp =>
    have e : R ≠ R0 := by
      intro he
      subst he
      obtain ⟨h0, hres⟩ := inv.avail_resolved R r hav
      have hu := inv.handle_unique h0 h R (by rw [hres]; rfl) (by rw [hp]; rfl)
      rw [← hu, hres] at hp
      simp at hp
    dsimp only
    rw [upd_other _ _ _ _ e]
  | resolve h R0 hp => rfl
  | settle t R0 h R' r0 ht hr => rfl
  | waiterWake t R0 h R' r0 ht hr => rfl

/-- Once an entry is settled, every later configuration keeps it settled
with the same value and never spawns the external process for it again. -/
theorem reaches_settled_sticky (outcome : String → ServiceResult String)
    {c c' : Config} (inv : Inv outcome c) (hr : Reaches outcome c c')
    (R : String) (r : ServiceResult String)
    (hav : c.cache R = .available r) :
    c'.cache R = .available r ∧ c'.spawns R = c.spawns R ∧ Inv outcome c' := by
  induction hr with
  | refl => exact ⟨hav, rfl, inv⟩
  | tail _hab hbc ih =>
    obtain ⟨havb, hspb, invb⟩ := ih
    have hstep := step_entryStepOk outcome invb hbc R
    have hle := entryLe_of_stepOk hstep
    rw [havb] at hle
    refine ⟨hle, ?_, inv_step outcome invb hbc⟩
    rw [step_spawns_settled outcome invb hbc R r havb, hspb]

/-! ### A concrete run, parametric in the clone outcome

Three callers of `lookup_or_clone("u")`: task 0 takes the vacant branch,
task 1 joins as a waiter, the process is spawned once and resolves with
the ambient outcome, task 1 wakes, task 0 settles the entry; task 2 then
arrives and hits the settled entry. -/

/-- Three callers for remote "u", everyone else idle. -/
def wTasks : Nat → TaskState :=
  fun t => if t ≤ 2 then .ready "u" else .idle

theorem wTasks_ready : readyTasks wTasks := by
  intro t
  by_cases h : t ≤ 2
  · exact Or.inr ⟨"u", by simp [wTasks, h]⟩
  · exact Or.inl (by simp [wTasks, h])

/-- Initial configuration of the concrete run. -/
def wC0 : Config := initConfig wTasks

/-- After task 0 takes the vacant branch. -/
def wC1 : Config :=
  { wC0 with
    cache := upd wC0.cache "u" (.cloning wC0.nextHandle)
    handles := upd wC0.handles wC0.nextHandle (.pending "u")
    nextHandle := wC0.nextHandle + 1
    installs := upd wC0.installs "u" (wC0.installs "u" + 1)
    tasks := upd wC0.tasks 0 (.installer "u" wC0.nextHandle) }

/-- After task 1 finds the in-flight entry and clones the handle. -/
def wC2 : Config := { wC1 with tasks := upd wC1.tasks 1 (.waiting "u" 0) }

/-- After the shared future is first polled and spawns the process. -/
def wC3 : Config :=
  { wC2 with
    handles := upd wC2.handles 0 (.running "u")
    spawns := upd wC2.spawns "u" (wC2.spawns "u" + 1) }

/-- After the process exits and the future resolves with the outcome. -/
def wC4 (o : String → ServiceResult String) : Config :=
  { wC3 with handles := upd wC3.handles 0 (.resolved "u" (o "u")) }

/-- After task 1 wakes with the shared value. -/
def wC5 (o : String → ServiceResult String) : Config :=
  { wC4 o with tasks := upd (wC4 o).tasks 1 (.done "u" (o "u")) }

/-- After task 0 settles the entry. -/
def wC6 (o : String → ServiceResult String) : Config :=
  { wC5 o with
    cache := upd (wC5 o).cache "u" (.available (o "u"))
    settles := upd (wC5 o).settles "u" ((wC5 o).settles "u" + 1)
    tasks := upd (wC5 o).tasks 0 (.done "u" (o "u")) }

/-- After task 2 hits the settled entry. -/
def wC7 (o : String → ServiceResult String) : Config :=
  { wC6 o with tasks := upd (wC6 o).tasks 2 (.done "u" (o "u")) }

theorem wStep1 (o : String → ServiceResult String) : Step o wC0 wC1 :=
  Step.install wC0 0 "u" (by decide) (by decide)

theorem wStep2 (o : String → ServiceResult String) : Step o wC1 wC2 :=
  Step.hitCloning wC1 1 "u" 0 (by decide) (by decide)

theorem wStep3 (o : String → ServiceResult String) : Step o wC2 wC3 :=
  Step.spawn wC2 0 "u" (by decide)

theorem wStep4 (o : String → ServiceResult String) : Step o wC3 (wC4 o) :=
  Step.resolve wC3 0 "u" (by decide)

theorem wStep5 (o : String → ServiceResult String) :
    Step o (wC4 o) (wC5 o) :=
  Step.waiterWake (wC4 o) 1 "u" 0 "u" (o "u") rfl rfl

theorem wStep6 (o : String → ServiceResult String) :
    Step o (wC5 o) (wC6 o) :=
  Step.settle (wC5 o) 0 "u" 0 "u" (o "u") rfl rfl

theorem wStep7 (o : String → ServiceResult String) :
    Step o (wC6 o) (wC7 o) :=
  Step.hitAvailable (wC6 o) 2 "u" (o "u") rfl rfl

theorem wReach6 (o : String → ServiceResult String) :
    Reaches o wC0 (wC6 o) :=
  (((((Relation.ReflTransGen.refl.tail (wStep1 o)).tail (wStep2 o)).tail
    (wStep3 o)).tail (wStep4 o)).tail (wStep5 o)).tail (wStep6 o)

theorem wReach7 (o : String → ServiceResult String) :
    Reaches o wC0 (wC7 o) :=
  (wReach6 o).tail (wStep7 o)

/-- A fixed successful outcome for the concrete run. -/
def wOk : String → ServiceResult String := fun _ => .ok "pool/p"

/-- A fixed failing outcome for the concrete run. -/
def wErr : String → ServiceResult String :=
  fun _ => .error (.cloneFailed "exit status: 128")

/-! ### The claims -/

/-- C1: for any remote R and any interleaving of concurrent
`lookup_or_clone(R)` calls on one Pool, the external VCS is spawned at most
once for R; exactly one caller observes the vacant entry and installs the
shared in-flight computation (at most one installation ever happens, and
one must have happened for any caller to finish), and every concurrent
caller that waits does so on that same shared handle. -/
theorem C1_single_flight (outcome : String → ServiceResult String)
    (ts : Nat → TaskState) (hts : readyTasks ts) (c : Config)
    (hr : Reaches outcome (initConfig ts) c) (R : String) :
    c.spawns R ≤ 1 ∧ c.installs R ≤ 1 ∧
    (∀ t t' h h', c.tasks t = .installer R h → c.tasks t' = .installer R h' →
      t = t' ∧ h = h') ∧
    (∀ t t' h h', c.tasks t = .installer R h → c.tasks t' = .waiting R h' →
      h' = h) ∧
    (∀ t r, c.tasks t = .done R r → c.installs R = 1) := by
  have inv := inv_reaches outcome ts hts hr
  refine ⟨?_, ?_, ?_, ?_, fun t r hd => inv.done_installed t R r hd⟩
  · by_cases hex : ∃ h, spawnedFor c h R
    · obtain ⟨h, hs⟩ := hex
      have := inv.spawns1 R h hs
      omega
    · push_neg at hex
      have := inv.spawns0 R hex
      omega
  · by_cases hex : ∃ h, (c.handles h).remote = some R
    · obtain ⟨h, hs⟩ := hex
      have := inv.installs1 R h hs
      omega
    · push_neg at hex
      have := inv.installs0 R hex
      omega
  · intro t t' h h' hi hi'
    refine ⟨inv.installer_unique t t' R h h' hi hi', ?_⟩
    exact inv.handle_unique h h' R (inv.installer_handle t R h hi)
      (inv.installer_handle t' R h' hi')
  · intro t t' h h' hi hw
    exact inv.handle_unique h' h R (inv.waiting_handle t' R h' hw)
      (inv.installer_handle t R h hi)

/-- Witness for C1: on the concrete three-caller run the process was
spawned exactly once and exactly one installation happened. -/
theorem C1_single_flight_witness :
    (wC7 wOk).spawns "u" = 1 ∧ (wC7 wOk).spawns "u" ≤ 1 ∧
    (wC7 wOk).installs "u" = 1 := by
  have h := C1_single_flight wOk wTasks wTasks_ready (wC7 wOk) (wReach7 wOk) "u"
  exact ⟨by decide, h.1, h.2.2.2.2 2 (.ok "pool/p") (by decide)⟩

/-- C4: after `lookup_or_clone(R)` settles with an error, the error is the
entry's cached terminal value: every later configuration keeps the entry
settled with that same error, the external VCS is never spawned again for
R, and every caller that completes for R returns that same error. -/
theorem C4_failure_sticky (outcome : String → ServiceResult String)
    (ts : Nat → TaskState) (hts : readyTasks ts) (c c' : Config)
    (hr0 : Reaches outcome (initConfig ts) c) (e : ServiceError) (R : String)
    (hav : c.cache R = .available (.error e)) (hr : Reaches outcome c c') :
    c'.cache R = .available (.error e) ∧ c'.spawns R = c.spawns R ∧
    ∀ t r, c'.tasks t = .done R r → r = .error e := by
  have inv := inv_reaches outcome ts hts hr0
  obtain ⟨hc', hsp, inv'⟩ :=
    reaches_settled_sticky outcome inv hr R (.error e) hav
  refine ⟨hc', hsp, ?_⟩
  intro t r hd
  have h1 := inv'.done_val t R r hd
  have h2 := inv'.avail_val R (.error e) hc'
  rw [h1, ← h2]

/-- Witness for C4: on the failing concrete run the third caller observes
the cached error without a second spawn. -/
theorem C4_failure_sticky_witness :
    (wC7 wErr).cache "u" =
      .available (.error (.cloneFailed "exit status: 128")) ∧
    (wC7 wErr).spawns "u" = (wC6 wErr).spawns "u" := by
  have h := C4_failure_sticky wErr wTasks wTasks_ready (wC6 wErr) (wC7 wErr)
    (wReach6 wErr) (.cloneFailed "exit status: 128") "u" (by decide)
    (Relation.ReflTransGen.refl.tail (wStep7 wErr))
  exact ⟨h.1, h.2.1⟩

/-- C5: `lookup` returns `None` exactly when no entry exists or the entry
is still in flight, `Some r` exactly when the entry is settled with `r`;
it is a total pure function of the entry alone — it mutates nothing and
never awaits a clone. -/
theorem C5_lookup_semantics (c : Config) (R : String) :
    (lookupFn c R = none ↔
      c.cache R = .absent ∨ ∃ h, c.cache R = .cloning h) ∧
    (∀ r, lookupFn c R = some r ↔ c.cache R = .available r) ∧
    (∀ c', c'.cache R = c.cache R → lookupFn c' R = lookupFn c R) := by
  refine ⟨?_, ?_, ?_⟩
  · constructor
    · intro hnone
      rcases hE : c.cache R with _ | h | r
      · exact Or.inl rfl
      · exact Or.inr ⟨h, rfl⟩
      · unfold lookupFn at hnone
        rw [hE] at hnone
        simp at hnone
    · intro hd
      rcases hd with h1 | ⟨h, h1⟩ <;> unfold lookupFn <;> rw [h1]
  · intro r
    constructor
    · intro hsome
      unfold lookupFn at hsome
      rcases hE : c.cache R with _ | h | r'
      all_goals rw [hE] at hsome
      · simp at hsome
      · simp at hsome
      · simp at hsome
        rw [hsome]
    · intro hav
      unfold lookupFn
      rw [hav]
  · intro c' he
    unfold lookupFn
    rw [he]

/-- Witness for C5: settled entry read back, in-flight entry reads None. -/
theorem C5_lookup_semantics_witness :
    lookupFn (wC6 wOk) "u" = some (.ok "pool/p") ∧
    lookupFn wC3 "u" = none :=
  ⟨((C5_lookup_semantics (wC6 wOk) "u").2.1 (.ok "pool/p")).mpr (by decide),
   (C5_lookup_semantics wC3 "u").1.mpr (Or.inr ⟨0, by decide⟩)⟩

/-- C6: on success the pooled path equals the pool root joined with the
lower-hex SHA-256 of the remote's UTF-8 bytes, which is also the
destination argument of the spawned `git clone`; and any value
`lookup_or_clone` completes with is the value `clone_repo` produced. -/
theorem C6_pooled_path (root R d : String) (spawn : String → SpawnResult) :
    cloneRepo root R (destDirName R) (.ok { success := true, desc := d }) =
      .ok (joinPath root (destDirName R)) ∧
    (cloneRepoCommand root R (destDirName R)).args =
      ["clone", R, destDirName R] ∧
    destDirName R = hexLower (sha256 (utf8Bytes R)) ∧
    (∀ ts c t p, readyTasks ts →
      Reaches (fun R0 => cloneRepo root R0 (destDirName R0) (spawn R0))
        (initConfig ts) c →
      c.tasks t = .done R p →
      p = cloneRepo root R (destDirName R) (spawn R)) := by
  refine ⟨?_, rfl, rfl, ?_⟩
  · simp [cloneRepo]
  · intro ts c t p hts hr hd
    exact (inv_reaches _ ts hts hr).done_val t R p hd

/-- Successful spawns for the C6 witness run. -/
def wSpawnOkFn : String → SpawnResult :=
  fun _ => .ok { success := true, desc := "exit status: 0" }

/-- The clone outcome used in the C6 witness run: exactly what
`clone_repo` computes. -/
def wCloneOutcome : String → ServiceResult String :=
  fun R0 => cloneRepo "/pool" R0 (destDirName R0) (wSpawnOkFn R0)

/-- Witness for C6: the waiter on the concrete run receives exactly
`pool_root / hex_sha256("u")`. -/
theorem C6_pooled_path_witness :
    wCloneOutcome "u" = .ok (joinPath "/pool" (destDirName "u")) := by
  have h := C6_pooled_path "/pool" "u" "exit status: 0" wSpawnOkFn
  have h4 := h.2.2.2 wTasks (wC6 wCloneOutcome) 1 (wCloneOutcome "u")
    wTasks_ready (wReach6 wCloneOutcome) rfl
  rw [h4]
  exact h.1

/-- C7: each step moves each cache entry only along
Absent → InFlight → Settled; over any continuation an in-flight entry can
only stay or settle and a settled entry is frozen with its value (so no
entry is ever removed); the InFlight → Settled transition happens at most
once per remote, and exactly once by the time the entry is settled. -/
theorem C7_entry_lifecycle (outcome : String → ServiceResult String)
    (ts : Nat → TaskState) (hts : readyTasks ts) (c : Config)
    (hr : Reaches outcome (initConfig ts) c) :
    (∀ c', Step outcome c c' → ∀ R, entryStepOk (c.cache R) (c'.cache R)) ∧
    (∀ c' R, Reaches outcome c c' → entryLe (c.cache R) (c'.cache R)) ∧
    (∀ R, c.settles R ≤ 1) ∧
    (∀ R r, c.cache R = .available r → c.settles R = 1) := by
  have inv := inv_reaches outcome ts hts hr
  refine ⟨fun c' hs R => step_entryStepOk outcome inv hs R,
    fun c' R hr' => (reaches_entryLe outcome inv hr').2 R, ?_,
    fun R r hav => inv.settles1 R r hav⟩
  intro R
  by_cases hex : ∃ r, c.cache R = .available r
  · obtain ⟨r, hav⟩ := hex
    have := inv.settles1 R r hav
    omega
  · push_neg at hex
    have := inv.settles0 R hex
    omega

/-- Witness for C7: the settled entry of the concrete run was settled
exactly once. -/
theorem C7_entry_lifecycle_witness :
    (wC6 wOk).settles "u" = 1 ∧ (wC6 wOk).settles "u" ≤ 1 := by
  have h := C7_entry_lifecycle wOk wTasks wTasks_ready (wC6 wOk) (wReach6 wOk)
  exact ⟨h.2.2.2 "u" (.ok "pool/p") (by decide), h.2.2.1 "u"⟩

/-- C2 counterexample: the working-copy clone of `Pool::clone_in` exits
with a non-zero status, yet `clone_in` returns `Ok(())` — not
`Err(CloneFailed)` as the claim states. -/
theorem C2_counterexample :
    poolCloneIn (.ok "/pool/abc") none "u" none
      (.ok { success := false, desc := "exit status: 128" }) =
      .ok (.ok ()) ∧
    returnsCloneFailed
      (poolCloneIn (.ok "/pool/abc") none "u" none
        (.ok { success := false, desc := "exit status: 128" })) = false :=
  ⟨rfl, rfl⟩

/-- C2 amended: a non-zero exit maps to `Err(CloneFailed)` for the pooled
clone (`clone_repo`, with I/O launch errors mapping to `Err(Io)`), and for
the crate's `PoolHelper` local mode; but `Pool::clone_in`'s working-copy
clone ignores the exit status and returns `Ok(())`, and the yb crate's
`PoolHelper` local mode likewise returns `Ok(Ok(()))` on any exit status
and maps launch I/O errors to `CloneFailed` instead of `Io`. -/
theorem C2_error_mapping (root remote destDir d m poolPath : String)
    (cwd dir : Option String) (st : ProcExit) :
    cloneRepo root remote destDir (.ok { success := false, desc := d }) =
      .error (.cloneFailed d) ∧
    cloneRepo root remote destDir (.error m) = .error (.ioError m) ∧
    helperLocalCloneIn (.ok { success := false, desc := d }) =
      .ok (.error (.cloneFailed ("exit code: " ++ d))) ∧
    helperLocalCloneIn (.error m) =
      .ok (.error (.ioError ("failed to call status() on command: " ++ m))) ∧
    poolCloneIn (.ok poolPath) cwd remote dir (.ok st) = .ok (.ok ()) ∧
    ybHelperLocalCloneIn (.ok st) = .ok (.ok ()) ∧
    ybHelperLocalCloneIn (.error m) = .ok (.error (.cloneFailed m)) := by
  refine ⟨?_, rfl, ?_, rfl, rfl, rfl, rfl⟩
  · simp [cloneRepo]
  · simp [helperLocalCloneIn]

/-- C3 counterexample: when `lookup_or_clone` settles with an error,
`Pool::clone_in` panics (`.unwrap()`), instead of returning the failure as
an `Err` value as the claim states. -/
theorem C3_counterexample :
    poolCloneIn (.error (.cloneFailed "fatal: repository not found")) none
      "https://example.com/repo.git" none
      (.ok { success := true, desc := "exit status: 0" }) = .panicked ∧
    returnsErrValue
      (poolCloneIn (.error (.cloneFailed "fatal: repository not found")) none
        "https://example.com/repo.git" none
        (.ok { success := true, desc := "exit status: 0" })) = false :=
  ⟨rfl, rfl⟩

/-- C3 amended: `clone_in` first consults the `lookup_or_clone` result;
when that result is an error it panics rather than returning `Err`; when
it is `Ok(path)` it spawns the working-copy clone with
`--reference path --dissociate` and returns `Ok` unless launching the
process failed. -/
theorem C3_clone_in_behavior (e : ServiceError) (p remote m : String)
    (cwd dir : Option String) (sp : SpawnResult) (st : ProcExit) :
    poolCloneIn (.error e) cwd remote dir sp = .panicked ∧
    poolCloneIn (.ok p) cwd remote dir (.error m) =
      .ok (.error (.ioError m)) ∧
    poolCloneIn (.ok p) cwd remote dir (.ok st) = .ok (.ok ()) ∧
    (cloneInCommand p cwd remote dir).args =
      ["clone", remote] ++ dir.toList ++ ["--reference", p, "--dissociate"] :=
  ⟨rfl, rfl, rfl, rfl⟩

/-- Witness for C2: the error mapping evaluated on a concrete failing
exit. -/
theorem C2_error_mapping_witness :
    cloneRepo "/pool" "u" (destDirName "u")
      (.ok { success := false, desc := "exit status: 128" }) =
      .error (.cloneFailed "exit status: 128") :=
  (C2_error_mapping "/pool" "u" (destDirName "u") "exit status: 128" "m"
    "/pool/p" none none { success := true, desc := "" }).1

/-- Witness for C3: the panic evaluated on a concrete erroring lookup. -/
theorem C3_clone_in_behavior_witness :
    poolCloneIn (.error (.ioError "no git binary")) none "u" none
      (.ok { success := true, desc := "" }) = .panicked :=
  (C3_clone_in_behavior (.ioError "no git binary") "/pool/p" "u" "m" none
    none (.ok { success := true, desc := "" })
    { success := true, desc := "" }).1

/-- C8: `connect_or_local` reads exactly `CONCURRENT_GIT_POOL`: when set,
the helper holds a client connected to that endpoint and routes `clone_in`
through the RPC; when unset, the helper is local and `clone_in` builds a
direct `git` command; and the result depends on no other variable. -/
theorem C8_connect_or_local (env : String → Option String)
    (net : String → Except String Unit) (uri : String)
    (parentDir directory : Option String) :
    (∀ ep, env "CONCURRENT_GIT_POOL" = some ep →
      connectOrLocal env net =
        (net ep).map (fun _ => { inner := some { endpoint := ep } }) ∧
      (∀ hm, connectOrLocal env net = .ok hm →
        poolHelperRoute hm uri parentDir directory =
          .rpc ep uri parentDir directory)) ∧
    (env "CONCURRENT_GIT_POOL" = none →
      connectOrLocal env net = .ok { inner := none } ∧
      poolHelperRoute { inner := none } uri parentDir directory =
        .localCmd (helperLocalCommand uri parentDir directory)) ∧
    (∀ env', env' "CONCURRENT_GIT_POOL" = env "CONCURRENT_GIT_POOL" →
      connectOrLocal env' net = connectOrLocal env net) := by
  refine ⟨?_, ?_, ?_⟩
  · intro ep hep
    constructor
    · simp only [connectOrLocal, clientConnect, hep]
      cases hn : net ep <;> simp [Except.map]
    · intro hm hok
      simp only [connectOrLocal, clientConnect, hep] at hok
      cases hn : net ep <;> rw [hn] at hok
      · simp [Except.map] at hok
      · simp only [Except.map] at hok
        injection hok with h2
        rw [← h2]
        rfl
  · intro hnone
    refine ⟨?_, rfl⟩
    simp only [connectOrLocal, hnone]
  · intro env' he
    unfold connectOrLocal
    rw [he]

/-- Environment with the pool variable set, for the C8 witness. -/
def wEnvSet : String → Option String :=
  fun k => if k = "CONCURRENT_GIT_POOL" then some "127.0.0.1:7777" else none

/-- A network that accepts every connection, for the C8 witness. -/
def wNetOk : String → Except String Unit := fun _ => .ok ()

/-- Witness for C8: with the variable set the helper is remote and routes
over the RPC; with it unset the helper is local. -/
theorem C8_connect_or_local_witness :
    connectOrLocal wEnvSet wNetOk =
      .ok { inner := some { endpoint := "127.0.0.1:7777" } } ∧
    poolHelperRoute { inner := some { endpoint := "127.0.0.1:7777" } }
      "u" none none = .rpc "127.0.0.1:7777" "u" none none ∧
    connectOrLocal (fun _ => none) wNetOk = .ok { inner := none } := by
  have h := C8_connect_or_local wEnvSet wNetOk "u" none none
  have h1 := h.1 "127.0.0.1:7777" (by decide)
  have h2 := (C8_connect_or_local (fun _ => none) wNetOk "u" none none).2.1 rfl
  exact ⟨h1.1.trans rfl, h1.2 _ (h1.1.trans rfl), h2.1⟩

/-- C9: every request built by the Client — `lookup`, `lookup_or_clone`,
`clone_in` — carries a context freshly built by `make_context` at call
time, whose deadline is exactly 5 minutes after that time. -/
theorem C9_client_deadline (now : Nat) (uri : String)
    (parentDir directory : Option String) :
    (clientLookupOrCloneReq now uri).context = makeContext now ∧
    (clientLookupReq now uri).context = makeContext now ∧
    (clientCloneInReq now uri parentDir directory).context = makeContext now ∧
    (makeContext now).deadline = now + 5 * 60 := by
  refine ⟨rfl, rfl, rfl, ?_⟩
  simp [makeContext]

/-- Witness for C9: a concrete request carries a deadline 300 seconds
after its construction time. -/
theorem C9_client_deadline_witness :
    (clientLookupOrCloneReq 1000 "u").context = makeContext 1000 ∧
    (makeContext 1000).deadline = 1000 + 5 * 60 := by
  have h := C9_client_deadline 1000 "u" none none
  exact ⟨h.1, h.2.2.2⟩

/-- C10: `Pool::new` never returns an error value: a failure creating the
temp directory panics the constructor, and every constructed Pool holds
the successfully created root directory. -/
theorem C10_pool_new_total (td : Except String TempDirM) :
    (∀ e, td = .error e → poolNew td = .panicked) ∧
    (∀ d, td = .ok d → poolNew td = .ok { root := d }) ∧
    (∀ p, poolNew td = .ok p → ∃ d, td = .ok d ∧ p.root = d) := by
  refine ⟨?_, ?_, ?_⟩
  · intro e hx
    rw [hx]
    rfl
  · intro d hx
    rw [hx]
    rfl
  · intro p hx
    cases td with
    | error e => simp [poolNew] at hx
    | ok d =>
      simp only [poolNew] at hx
      injection hx with h2
      exact ⟨d, rfl, by rw [← h2]⟩

/-- Witness for C10: a failed temp-dir creation panics; a successful one
yields a Pool rooted there. -/
theorem C10_pool_new_total_witness :
    poolNew (.error "no space left on device") = .panicked ∧
    poolNew (.ok { path := "/tmp/pool-root" }) =
      .ok { root := { path := "/tmp/pool-root" } } :=
  ⟨(C10_pool_new_total (.error "no space left on device")).1
      "no space left on device" rfl,
   (C10_pool_new_total (.ok { path := "/tmp/pool-root" })).2.1
      { path := "/tmp/pool-root" } rfl⟩

end GitPool
